import Mathlib

/-!
Verification of the serprog protocol engine of stm32-serprog-rs.

Shallow embedding of the sources:
* `src/buffer.rs` — the ring/staging `Buffer` with read/write cursors;
* `src/opcode.rs`, `src/command.rs` — the streaming command decoder (nom);
* `src/response_packet.rs` — `ResponsePacket::to_bytes` / `packet_size`;
* `src/spi.rs` — the `SpiManager` state machine and `transfer_with_cs`;
* `src/serprog.rs` — the `SerProg` dispatcher.

Bytes are modelled as `Nat` (they originate from `u8` slices), `usize`
arithmetic as `Nat` (all the quantities involved are cursor positions and
lengths that stay far below `2^64`, and the Rust code never relies on
wrapping).  Rust panics (out-of-bounds slicing, `copy_from_slice` length
mismatch, `unimplemented!`, failed `unwrap`) are modelled as explicit
`panic`/`none` outcomes, never silently dropped.
-/

/-! ## Buffer (src/buffer.rs)

`Buffer<S: BorrowMut<[u8]>>` is a fixed store plus two cursors.  The store
is a `List Nat`; `store.borrow().len()` is `store.length`.
-/

structure Buffer where
  store : List Nat
  rpos : Nat
  wpos : Nat
deriving Repr, DecidableEq

/-- `Buffer::new` (buffer.rs line 11). -/
def Buffer.new (store : List Nat) : Buffer :=
  { store := store, rpos := 0, wpos := 0 }

/-- `Buffer::clear` (buffer.rs line 19). -/
def Buffer.clear (b : Buffer) : Buffer :=
  { b with rpos := 0, wpos := 0 }

/-- `Buffer::available_read` (buffer.rs line 24): `wpos - rpos`. -/
def Buffer.available_read (b : Buffer) : Nat :=
  b.wpos - b.rpos

/-- `Buffer::available_write_without_discard` (buffer.rs line 38):
`store.len() - wpos`. -/
def Buffer.available_write_without_discard (b : Buffer) : Nat :=
  b.store.length - b.wpos

/-- `Buffer::available_write` (buffer.rs line 34). -/
def Buffer.available_write (b : Buffer) : Nat :=
  b.available_write_without_discard + b.rpos

/-- `Buffer::consume` (buffer.rs lines 42-52): advance the read cursor by
`min amt available_read`; when it reaches the physical end, reduce both
cursors modulo the store length. -/
def Buffer.consume (b : Buffer) (amt : Nat) : Buffer :=
  let count := min amt b.available_read
  let store_len := b.store.length
  let rpos := b.rpos + count
  if store_len ≤ rpos then
    { b with rpos := rpos % store_len, wpos := b.wpos % store_len }
  else
    { b with rpos := rpos }

/-- `Buffer::discard_already_read_data` (buffer.rs lines 110-124): the
`ptr::copy` moves the `available_read` unread bytes from offset `rpos`
down to offset 0 (positions from `available_read` on keep their old
contents), then both cursors are rebased. -/
def Buffer.discard_already_read_data (b : Buffer) : Buffer :=
  let store' :=
    if b.rpos ≠ b.store.length then
      (b.store.drop b.rpos).take b.available_read ++ b.store.drop b.available_read
    else
      b.store
  { b with store := store', wpos := b.wpos - b.rpos, rpos := 0 }

/-- Rust `dst[start..start+src.len()].copy_from_slice(src)` on a list when
the range is known to be in bounds. -/
def listSetSlice (l : List Nat) (start : Nat) (src : List Nat) : List Nat :=
  l.take start ++ src ++ l.drop (start + src.length)

/-- The tail of `Buffer::write` after the optional compaction
(buffer.rs lines 61-70): `count = min(available_write_without_discard,
data.len())`; if zero, nothing happens; otherwise `data[..count]` is
copied to `store[wpos..wpos+count]` and the write cursor advances. -/
def Buffer.write_fit (b : Buffer) (data : List Nat) : Buffer × Nat :=
  if min b.available_write_without_discard data.length = 0 then
    (b, 0)
  else
    (Buffer.mk
      (listSetSlice b.store b.wpos
        (data.take (min b.available_write_without_discard data.length)))
      b.rpos
      (b.wpos + min b.available_write_without_discard data.length),
     min b.available_write_without_discard data.length)

/-- `Buffer::write` (buffer.rs lines 55-71): compact when the data does
not fit in the contiguous tail and a consumed prefix exists, then append
what fits. -/
def Buffer.write (b : Buffer) (data : List Nat) : Buffer × Nat :=
  if b.available_write_without_discard < data.length ∧ 0 < b.rpos then
    (b.discard_already_read_data).write_fit data
  else
    b.write_fit data

/-- The body of `Buffer::write_all` after the space checks (buffer.rs
lines 92-97): the closure receives the `max_count`-byte region after
`wpos`, rewrites it, and on `Ok(count)` the write cursor advances by
`count`.  On `Err` the closure's writes persist in the store but nothing
is committed. -/
def Buffer.write_all_go {ε : Type} (b : Buffer) (max_count : Nat)
    (f : List Nat → List Nat × Except ε Nat) : Buffer × Except ε Nat :=
  let region := (b.store.drop b.wpos).take max_count
  let out := f region
  let store' := listSetSlice b.store b.wpos out.1
  match out.2 with
  | .ok count => ({ b with store := store', wpos := b.wpos + count }, .ok count)
  | .error e => ({ b with store := store' }, .error e)

/-- `Buffer::write_all` (buffer.rs lines 77-98).  The closure is modelled
as a function from the reserved region to its new contents and the
reported `Result<usize, E>`. -/
def Buffer.write_all {ε : Type} (b : Buffer) (max_count : Nat)
    (f : List Nat → List Nat × Except ε Nat) : Buffer × Except ε Nat :=
  if b.available_write_without_discard < max_count then
    if b.available_write < max_count then
      (b, .ok 0)
    else
      (b.discard_already_read_data).write_all_go max_count f
  else
    b.write_all_go max_count f

/-- `Buffer::read` (buffer.rs lines 104-108): pass the closure a view of
up to `min max_count available_read` unread bytes; no cursor moves. -/
def Buffer.read {α : Type} (b : Buffer) (max_count : Nat) (f : List Nat → α) : α :=
  let count := min max_count b.available_read
  f ((b.store.drop b.rpos).take count)

/-- The representation invariant the implementation actually maintains:
`rpos ≤ wpos ≤ store.length`. -/
def Buffer.Inv (b : Buffer) : Prop :=
  b.rpos ≤ b.wpos ∧ b.wpos ≤ b.store.length

/-- The unread region of the buffer, as the parser sees it. -/
def Buffer.readView (b : Buffer) : List Nat :=
  (b.store.drop b.rpos).take b.available_read

/-- States reachable from `Buffer::new` through the public mutating
operations.  The `write_all` step carries the closure contract stated in
buffer.rs ("The closure should return the number of bytes actually
written and is allowed to write less"): the reported count is at most the
region's size, and a Rust closure can never change the length of the
`&mut [u8]` it is handed. -/
inductive Buffer.Reachable : Buffer → Prop where
  | new (store : List Nat) : Buffer.Reachable (Buffer.new store)
  | clear {b : Buffer} : Buffer.Reachable b → Buffer.Reachable b.clear
  | write {b : Buffer} (data : List Nat) :
      Buffer.Reachable b → Buffer.Reachable (b.write data).1
  | write_all {b : Buffer} {ε : Type} (max_count : Nat)
      (f : List Nat → List Nat × Except ε Nat)
      (hlen : ∀ s, (f s).1.length = s.length)
      (hcount : ∀ s n, (f s).2 = .ok n → n ≤ s.length) :
      Buffer.Reachable b → Buffer.Reachable (b.write_all max_count f).1
  | consume {b : Buffer} (amt : Nat) :
      Buffer.Reachable b → Buffer.Reachable (b.consume amt)

lemma listSetSlice_length (l : List Nat) (start : Nat) (src : List Nat)
    (h : start + src.length ≤ l.length) :
    (listSetSlice l start src).length = l.length := by
  simp [listSetSlice]
  omega

lemma Buffer.inv_new (store : List Nat) : (Buffer.new store).Inv := by
  constructor <;> simp [Buffer.new]

lemma Buffer.inv_clear {b : Buffer} (_h : b.Inv) : b.clear.Inv := by
  constructor <;> simp [Buffer.clear]

lemma Buffer.discard_store_length {b : Buffer} (h : b.Inv) :
    b.discard_already_read_data.store.length = b.store.length := by
  obtain ⟨h1, h2⟩ := h
  by_cases hr : b.rpos = b.store.length
  · simp [Buffer.discard_already_read_data, hr]
  · simp [Buffer.discard_already_read_data, hr, Buffer.available_read]
    omega

lemma Buffer.inv_discard {b : Buffer} (h : b.Inv) :
    b.discard_already_read_data.Inv := by
  obtain ⟨h1, h2⟩ := h
  constructor
  · simp [Buffer.discard_already_read_data]
  · have := Buffer.discard_store_length ⟨h1, h2⟩
    simp only [Buffer.discard_already_read_data] at this ⊢
    omega

lemma Buffer.inv_write_fit {b : Buffer} (data : List Nat) (h : b.Inv) :
    (b.write_fit data).1.Inv := by
  obtain ⟨h1, h2⟩ := h
  unfold Buffer.write_fit
  split
  · exact ⟨h1, h2⟩
  · have hlen : (listSetSlice b.store b.wpos
        (data.take (min b.available_write_without_discard data.length))).length
        = b.store.length := by
      apply listSetSlice_length
      simp only [List.length_take, Buffer.available_write_without_discard]
      omega
    constructor
    · dsimp only
      omega
    · dsimp only
      rw [hlen]
      simp only [Buffer.available_write_without_discard]
      omega

lemma Buffer.inv_write {b : Buffer} (data : List Nat) (h : b.Inv) :
    (b.write data).1.Inv := by
  unfold Buffer.write
  split
  · exact Buffer.inv_write_fit data (Buffer.inv_discard h)
  · exact Buffer.inv_write_fit data h

lemma Buffer.inv_write_all_go {ε : Type} {b : Buffer} (max_count : Nat)
    (f : List Nat → List Nat × Except ε Nat)
    (hlen : ∀ s, (f s).1.length = s.length)
    (hcount : ∀ s n, (f s).2 = .ok n → n ≤ s.length)
    (h : b.Inv) (hmc : max_count ≤ b.store.length - b.wpos) :
    (b.write_all_go max_count f).1.Inv := by
  obtain ⟨h1, h2⟩ := h
  unfold Buffer.write_all_go
  set region := (b.store.drop b.wpos).take max_count with hregion
  have hreglen : region.length = max_count := by
    rw [hregion]
    simp
    omega
  have hout : (f region).1.length = max_count := by rw [hlen, hreglen]
  have hstore : (listSetSlice b.store b.wpos (f region).1).length
      = b.store.length := by
    apply listSetSlice_length
    omega
  simp only []
  split
  next count heq =>
    have hcle : count ≤ max_count := by
      have := hcount region count
      rw [hreglen] at this
      exact this heq
    exact ⟨by simp; omega, by simp [hstore]; omega⟩
  next e heq =>
    exact ⟨by simp [h1], by simp [hstore, h2]⟩

lemma Buffer.inv_write_all {ε : Type} {b : Buffer} (max_count : Nat)
    (f : List Nat → List Nat × Except ε Nat)
    (hlen : ∀ s, (f s).1.length = s.length)
    (hcount : ∀ s n, (f s).2 = .ok n → n ≤ s.length)
    (h : b.Inv) : (b.write_all max_count f).1.Inv := by
  unfold Buffer.write_all
  split
  · split
    · exact h
    · apply Buffer.inv_write_all_go max_count f hlen hcount (Buffer.inv_discard h)
      have hd := Buffer.discard_store_length h
      obtain ⟨h1, h2⟩ := h
      simp only [Buffer.discard_already_read_data] at hd ⊢
      simp [Buffer.available_write, Buffer.available_write_without_discard] at *
      omega
  · apply Buffer.inv_write_all_go max_count f hlen hcount h
    simp [Buffer.available_write_without_discard] at *
    omega

lemma Buffer.inv_consume {b : Buffer} (amt : Nat) (h : b.Inv) :
    (b.consume amt).Inv := by
  obtain ⟨h1, h2⟩ := h
  unfold Buffer.consume
  simp only [Buffer.available_read]
  split
  next hge =>
    have : b.rpos + min amt (b.wpos - b.rpos) ≤ b.wpos := by omega
    have hr : b.rpos + min amt (b.wpos - b.rpos) = b.store.length := by omega
    have hw : b.wpos = b.store.length := by omega
    constructor
    · rw [hr, Nat.mod_self]
      exact Nat.zero_le _
    · calc b.wpos % b.store.length ≤ b.wpos := Nat.mod_le _ _
        _ ≤ b.store.length := h2
  next hlt =>
    constructor
    · simp
      omega
    · simpa using h2

/-- Every reachable buffer satisfies the representation invariant. -/
lemma Buffer.reachable_inv {b : Buffer} (h : b.Reachable) : b.Inv := by
  induction h with
  | new store => exact Buffer.inv_new store
  | clear _ ih => exact Buffer.inv_clear ih
  | write data _ ih => exact Buffer.inv_write data ih
  | write_all max_count f hlen hcount _ ih =>
      exact Buffer.inv_write_all max_count f hlen hcount ih
  | consume amt _ ih => exact Buffer.inv_consume amt ih

lemma Buffer.readView_discard {b : Buffer} (h : b.Inv) :
    b.discard_already_read_data.readView = b.readView := by
  obtain ⟨h1, h2⟩ := h
  by_cases hr : b.rpos = b.store.length
  · have hw : b.wpos = b.store.length := by omega
    simp [Buffer.discard_already_read_data, Buffer.readView, hr,
      Buffer.available_read, hw]
  · have hn : ((b.store.drop b.rpos).take (b.wpos - b.rpos)).length
        = b.wpos - b.rpos := by
      simp
      omega
    simp only [Buffer.discard_already_read_data, Buffer.readView,
      Buffer.available_read, ne_eq, if_pos hr]
    simp only [List.drop_zero, Nat.sub_zero]
    exact List.take_left' hn

lemma Buffer.discard_available_write {b : Buffer} (h : b.Inv) :
    b.discard_already_read_data.available_write_without_discard
      = b.available_write := by
  obtain ⟨h1, h2⟩ := h
  have := Buffer.discard_store_length ⟨h1, h2⟩
  simp only [Buffer.available_write, Buffer.available_write_without_discard,
    Buffer.discard_already_read_data] at this ⊢
  omega

lemma Buffer.readView_append (b : Buffer) (src : List Nat) (h : b.Inv)
    (_hle : b.wpos + src.length ≤ b.store.length) :
    (Buffer.mk (listSetSlice b.store b.wpos src) b.rpos (b.wpos + src.length)).readView
      = b.readView ++ src := by
  obtain ⟨h1, h2⟩ := h
  have hlen1 : (b.store.take b.wpos).length = b.wpos := by
    simp
    omega
  have hdlen : ((b.store.take b.wpos).drop b.rpos).length = b.wpos - b.rpos := by
    simp
    omega
  have hfirst : ((b.store.take b.wpos).drop b.rpos).take (b.wpos + src.length - b.rpos)
      = (b.store.drop b.rpos).take (b.wpos - b.rpos) := by
    rw [List.take_of_length_le (by rw [hdlen]; omega)]
    rw [List.drop_take]
  simp only [Buffer.readView, Buffer.available_read, listSetSlice]
  rw [List.append_assoc]
  rw [List.drop_append_eq_append_drop, hlen1]
  have e1 : b.rpos - b.wpos = 0 := by omega
  rw [e1]
  simp only [List.drop_zero]
  rw [List.take_append_eq_append_take, hdlen]
  have e2 : b.wpos + src.length - b.rpos - (b.wpos - b.rpos) = src.length := by omega
  rw [e2, List.take_append_eq_append_take]
  simp only [List.take_length, Nat.sub_self, List.take_zero, List.append_nil]
  rw [hfirst]

lemma Buffer.write_fit_spec (b : Buffer) (data : List Nat) (h : b.Inv) :
    (b.write_fit data).2 = min b.available_write_without_discard data.length ∧
    (b.write_fit data).1.readView
      = b.readView ++ data.take (min b.available_write_without_discard data.length) ∧
    (b.write_fit data).1.store.length = b.store.length := by
  obtain ⟨h1, h2⟩ := h
  unfold Buffer.write_fit
  by_cases hz : min b.available_write_without_discard data.length = 0
  · rw [if_pos hz, hz]
    simp
  · rw [if_neg hz]
    have htk : (data.take (min b.available_write_without_discard data.length)).length
        = min b.available_write_without_discard data.length := by
      simp
    have hbound : b.wpos + min b.available_write_without_discard data.length
        ≤ b.store.length := by
      simp only [Buffer.available_write_without_discard]
      omega
    refine ⟨rfl, ?_, ?_⟩
    · have happ := Buffer.readView_append b
        (data.take (min b.available_write_without_discard data.length))
        ⟨h1, h2⟩ (by rw [htk]; exact hbound)
      rw [htk] at happ
      exact happ
    · rw [listSetSlice_length]
      rw [htk]
      exact hbound

lemma Buffer.write_count (b : Buffer) (data : List Nat) (h : b.Inv) :
    (b.write data).2 = min b.available_write data.length ∧
    (b.write data).1.readView
      = b.readView ++ data.take (min b.available_write data.length) ∧
    (b.write data).1.store.length = b.store.length := by
  obtain ⟨h1, h2⟩ := h
  unfold Buffer.write
  by_cases hc : b.available_write_without_discard < data.length ∧ 0 < b.rpos
  · rw [if_pos hc]
    have hfit := Buffer.write_fit_spec b.discard_already_read_data data
      (Buffer.inv_discard ⟨h1, h2⟩)
    rw [Buffer.discard_available_write ⟨h1, h2⟩, Buffer.readView_discard ⟨h1, h2⟩,
      Buffer.discard_store_length ⟨h1, h2⟩] at hfit
    exact hfit
  · rw [if_neg hc]
    have hfit := Buffer.write_fit_spec b data ⟨h1, h2⟩
    have hav : min b.available_write_without_discard data.length
        = min b.available_write data.length := by
      rw [not_and_or] at hc
      simp only [Buffer.available_write, Buffer.available_write_without_discard,
        Nat.not_lt] at hc ⊢
      rcases hc with hc | hc <;> omega
    rw [hav] at hfit
    exact hfit

/-- C8 counterexample: a two-byte buffer cannot hold the three bytes
`[1, 2, 3]`; the claim says `write` then writes zero bytes and returns 0,
but `Buffer::write` accepts the two bytes that fit and returns 2. -/
theorem c8_write_not_all_or_nothing :
    (Buffer.new [0, 0]).available_write < 3 ∧
    ((Buffer.new [0, 0]).write [1, 2, 3]).2 = 2 ∧
    ((Buffer.new [0, 0]).write [1, 2, 3]).2 ≠ 0 := by decide

/-- C8 (amended): `Buffer::write` appends as many bytes of `data` as fit:
it writes exactly `min available_write data.length` bytes — compacting
first when the tail's contiguous room is insufficient and a consumed
prefix exists — appends exactly that prefix of `data` to the unread
region, and preserves the store's capacity.  It returns 0 only when
`data` is empty or no space remains even after compaction, not whenever
`data` as a whole does not fit. -/
theorem buffer_write_appends_what_fits (b : Buffer) (data : List Nat)
    (h : b.Inv) :
    (b.write data).2 = min b.available_write data.length ∧
    (b.write data).1.readView
      = b.readView ++ data.take (min b.available_write data.length) ∧
    (b.write data).1.store.length = b.store.length :=
  Buffer.write_count b data h

/-- Witness for `buffer_write_appends_what_fits` at a concrete buffer:
capacity 4 with 2 unread bytes, writing 3 bytes accepts 2 of them. -/
theorem buffer_write_appends_what_fits_witness :
    (Buffer.mk [5, 6, 0, 0] 0 2).Inv ∧
    ((Buffer.mk [5, 6, 0, 0] 0 2).write [7, 8, 9]).2 = 2 ∧
    ((Buffer.mk [5, 6, 0, 0] 0 2).write [7, 8, 9]).1.readView = [5, 6, 7, 8] :=
  ⟨by constructor <;> decide,
   by
    have h := buffer_write_appends_what_fits (Buffer.mk [5, 6, 0, 0] 0 2) [7, 8, 9]
      ⟨by decide, by decide⟩
    exact ⟨h.1.trans (by decide), h.2.1.trans (by decide)⟩⟩

/-- C9: the RingBuffer invariant
`read_cursor ≤ write_cursor ≤ read_cursor + capacity`, together with
`available_read = write_cursor - read_cursor` and
`available_write = capacity - write_cursor + read_cursor`, holds in every
state reachable from a newly constructed buffer through `write`,
`write_all` (with any producer success/failure outcome respecting the
closure contract stated in buffer.rs), `read` (which does not mutate),
`consume` (any count, including the wraparound case) and `clear`. -/
theorem buffer_reachable_invariant (b : Buffer) (h : b.Reachable) :
    b.rpos ≤ b.wpos ∧ b.wpos ≤ b.rpos + b.store.length ∧
    b.available_read = b.wpos - b.rpos ∧
    b.available_write = b.store.length - b.wpos + b.rpos := by
  obtain ⟨h1, h2⟩ := Buffer.reachable_inv h
  exact ⟨h1, by omega, rfl, rfl⟩

/-- Witness for `buffer_reachable_invariant`: a freshly constructed
two-byte buffer after a `write` and a `consume`. -/
theorem buffer_reachable_invariant_witness :
    (((Buffer.new [0, 0]).write [1]).1.consume 1).available_read = 0 := by
  have hreach : (((Buffer.new [0, 0]).write [1]).1.consume 1).Reachable :=
    Buffer.Reachable.consume 1 (Buffer.Reachable.write [1] (Buffer.Reachable.new [0, 0]))
  have h := buffer_reachable_invariant _ hreach
  rw [h.2.2.1]
  decide

/-! ## OpCode (src/opcode.rs) and Command decoding (src/command.rs)

The decoder is built from nom combinators.  `streaming` number parsers
return `Incomplete` on short input; the `complete` ones return a terminal
error.  `Address(u32)`, `BusType(u8)` and `Hertz(u32)` newtypes are
modelled as the underlying `Nat`.
-/

inductive OpCode where
  | Nop | QIface | QCmdMap | QPgmName | QSerBuf | QBusType | QChipSize
  | QOpBuf | QWrnMaxLen | RByte | RNBytes | OInit | OWriteB | OWriteN
  | ODelay | OExec | SyncNop | QRdnMaxLen | SBusType | OSpiOp | SSpiFreq
  | SPinState
deriving Repr, DecidableEq

/-- `OpCode::from_u8` (opcode.rs lines 29-35): any byte `≤ 0x15` maps to
the constructor with that discriminant, anything larger is rejected. -/
def OpCode.from_u8 (n : Nat) : Option OpCode :=
  match n with
  | 0x00 => some .Nop
  | 0x01 => some .QIface
  | 0x02 => some .QCmdMap
  | 0x03 => some .QPgmName
  | 0x04 => some .QSerBuf
  | 0x05 => some .QBusType
  | 0x06 => some .QChipSize
  | 0x07 => some .QOpBuf
  | 0x08 => some .QWrnMaxLen
  | 0x09 => some .RByte
  | 0x0A => some .RNBytes
  | 0x0B => some .OInit
  | 0x0C => some .OWriteB
  | 0x0D => some .OWriteN
  | 0x0E => some .ODelay
  | 0x0F => some .OExec
  | 0x10 => some .SyncNop
  | 0x11 => some .QRdnMaxLen
  | 0x12 => some .SBusType
  | 0x13 => some .OSpiOp
  | 0x14 => some .SSpiFreq
  | 0x15 => some .SPinState
  | _ => none

/-- `Command<'a>` (command.rs lines 14-38). -/
inductive Command where
  | Nop | QIface | QCmdMap | QPgmName | QSerBuf | QBusType | QChipSize
  | QOpBuf | QWrnMaxLen
  | RByte (addr : Nat)
  | RNBytes (addr : Nat) (n : Nat)
  | OInit
  | OWriteB (addr : Nat) (data : Nat)
  | OWriteN (addr : Nat) (data : List Nat)
  | ODelay (us : Nat)
  | OExec | SyncNop | QRdnMaxLen
  | SBusType (flags : Nat)
  | OSpiOp (rlen : Nat) (data : List Nat)
  | SSpiFreq (hz : Nat)
  | SPinState (state : Bool)
deriving Repr, DecidableEq

/-- Outcome of a nom parser over a byte list: `done rest value`
(`Ok((rest, value))`), `incomplete` (`Err(Incomplete)`), or `failure`
(`Err(Error/Failure)`). -/
inductive ParseResult (α : Type) where
  | done (rest : List Nat) (value : α)
  | incomplete
  | failure
deriving Repr, DecidableEq

/-- nom's `?`-propagation: run the continuation on a successful parse,
forward `Incomplete`/`Error` unchanged. -/
def ParseResult.andThen {α β : Type} (r : ParseResult α)
    (f : List Nat → α → ParseResult β) : ParseResult β :=
  match r with
  | .done rest a => f rest a
  | .incomplete => .incomplete
  | .failure => .failure

/-- `nom::number::streaming::le_u8`. -/
def le_u8_streaming : List Nat → ParseResult Nat
  | [] => .incomplete
  | b :: rest => .done rest b

/-- `nom::number::streaming::le_u24` (little-endian). -/
def le_u24_streaming : List Nat → ParseResult Nat
  | b0 :: b1 :: b2 :: rest => .done rest (b0 + b1 * 256 + b2 * 65536)
  | _ => .incomplete

/-- `nom::number::complete::le_u32` (little-endian): note `complete`, a
short input is a terminal error, not `Incomplete`. -/
def le_u32_complete : List Nat → ParseResult Nat
  | b0 :: b1 :: b2 :: b3 :: rest =>
      .done rest (b0 + b1 * 256 + b2 * 65536 + b3 * 16777216)
  | _ => .failure

/-- `nom::bytes::streaming::take(n)`. -/
def take_streaming (n : Nat) (l : List Nat) : ParseResult (List Nat) :=
  if l.length < n then .incomplete else .done (l.drop n) (l.take n)

/-- `Command::opcode` (command.rs line 43): `map_opt(le_u8, OpCode::from_u8)`. -/
def Command.opcode (input : List Nat) : ParseResult OpCode :=
  (le_u8_streaming input).andThen fun rest b =>
    match OpCode.from_u8 b with
    | some op => .done rest op
    | none => .failure

/-- `Command::rbyte` (command.rs line 47). -/
def Command.rbyte (input : List Nat) : ParseResult Command :=
  (le_u24_streaming input).andThen fun rest addr => .done rest (.RByte addr)

/-- `Command::rnbytes` (command.rs line 51). -/
def Command.rnbytes (input : List Nat) : ParseResult Command :=
  (le_u24_streaming input).andThen fun rest addr =>
    (le_u24_streaming rest).andThen fun rest n =>
      .done rest (.RNBytes addr n)

/-- `Command::owriteb` (command.rs line 58). -/
def Command.owriteb (input : List Nat) : ParseResult Command :=
  (le_u24_streaming input).andThen fun rest addr =>
    (le_u8_streaming rest).andThen fun rest data =>
      .done rest (.OWriteB addr data)

/-- `Command::owriten` (command.rs line 65): length `n` first, then the
address, then `n` raw bytes via `streaming::take`. -/
def Command.owriten (input : List Nat) : ParseResult Command :=
  (le_u24_streaming input).andThen fun rest n =>
    (le_u24_streaming rest).andThen fun rest addr =>
      (take_streaming n rest).andThen fun rest data =>
        .done rest (.OWriteN addr data)

/-- `Command::odelay` (command.rs line 74): uses `complete::le_u32`. -/
def Command.odelay (input : List Nat) : ParseResult Command :=
  (le_u32_complete input).andThen fun rest us => .done rest (.ODelay us)

/-- `Command::sbustype` (command.rs line 78). -/
def Command.sbustype (input : List Nat) : ParseResult Command :=
  (le_u8_streaming input).andThen fun rest flags => .done rest (.SBusType flags)

/-- `Command::ospiop` (command.rs line 82): `slen` then `rlen`, then
`slen` raw bytes via `streaming::take`; `slen` itself is not retained. -/
def Command.ospiop (input : List Nat) : ParseResult Command :=
  (le_u24_streaming input).andThen fun rest slen =>
    (le_u24_streaming rest).andThen fun rest rlen =>
      (take_streaming slen rest).andThen fun rest data =>
        .done rest (.OSpiOp rlen data)

/-- `Command::sspifreq` (command.rs line 88): uses `complete::le_u32`. -/
def Command.sspifreq (input : List Nat) : ParseResult Command :=
  (le_u32_complete input).andThen fun rest freq => .done rest (.SSpiFreq freq)

/-- `Command::spinstate` (command.rs line 92): the decoded flag is
`state == 0`. -/
def Command.spinstate (input : List Nat) : ParseResult Command :=
  (le_u8_streaming input).andThen fun rest state =>
    .done rest (.SPinState (state = 0))

/-- `Command::parse` (command.rs lines 96-124). -/
def Command.parse (input : List Nat) : ParseResult Command :=
  (Command.opcode input).andThen fun res opcode =>
    match opcode with
    | .Nop => .done res .Nop
    | .QIface => .done res .QIface
    | .QCmdMap => .done res .QCmdMap
    | .QPgmName => .done res .QPgmName
    | .QSerBuf => .done res .QSerBuf
    | .QBusType => .done res .QBusType
    | .QChipSize => .done res .QChipSize
    | .QOpBuf => .done res .QOpBuf
    | .QWrnMaxLen => .done res .QWrnMaxLen
    | .RByte => Command.rbyte res
    | .RNBytes => Command.rnbytes res
    | .OInit => .done res .OInit
    | .OWriteB => Command.owriteb res
    | .OWriteN => Command.owriten res
    | .ODelay => Command.odelay res
    | .OExec => .done res .OExec
    | .SyncNop => .done res .SyncNop
    | .QRdnMaxLen => .done res .QRdnMaxLen
    | .SBusType => Command.sbustype res
    | .OSpiOp => Command.ospiop res
    | .SSpiFreq => Command.sspifreq res
    | .SPinState => Command.spinstate res

/-- Little-endian 24-bit encoding of a field value (spec section 4.2). -/
def le24 (n : Nat) : List Nat :=
  [n % 256, n / 256 % 256, n / 65536 % 256]

/-- Little-endian 32-bit encoding of a field value (spec section 4.2). -/
def le32 (n : Nat) : List Nat :=
  [n % 256, n / 256 % 256, n / 65536 % 256, n / 16777216 % 256]

/-- Modelled from the spec: the section 4.2 wire format of each command —
opcode byte, little-endian fields, 3-byte length prefixes immediately
before bulk payloads.  This is the reference encoder the round-trip claim
compares `Command::parse` against (the repository has no command
encoder). -/
def Command.wireEncode : Command → List Nat
  | .Nop => [0x00]
  | .QIface => [0x01]
  | .QCmdMap => [0x02]
  | .QPgmName => [0x03]
  | .QSerBuf => [0x04]
  | .QBusType => [0x05]
  | .QChipSize => [0x06]
  | .QOpBuf => [0x07]
  | .QWrnMaxLen => [0x08]
  | .RByte addr => 0x09 :: le24 addr
  | .RNBytes addr n => 0x0A :: (le24 addr ++ le24 n)
  | .OInit => [0x0B]
  | .OWriteB addr data => 0x0C :: (le24 addr ++ [data])
  | .OWriteN addr data => 0x0D :: (le24 data.length ++ le24 addr ++ data)
  | .ODelay us => 0x0E :: le32 us
  | .OExec => [0x0F]
  | .SyncNop => [0x10]
  | .QRdnMaxLen => [0x11]
  | .SBusType flags => [0x12, flags]
  | .OSpiOp rlen data => 0x13 :: (le24 data.length ++ le24 rlen ++ data)
  | .SSpiFreq hz => 0x14 :: le32 hz
  | .SPinState state => [0x15, if state then 0 else 1]

/-- Field values that fit the section 4.2 wire fields (addresses and
length prefixes are 24-bit, `ODelay`/`SSpiFreq` payloads 32-bit, single
byte fields 8-bit). -/
def Command.wellFormed : Command → Prop
  | .RByte addr => addr < 16777216
  | .RNBytes addr n => addr < 16777216 ∧ n < 16777216
  | .OWriteB addr data => addr < 16777216 ∧ data < 256
  | .OWriteN addr data => addr < 16777216 ∧ data.length < 16777216
  | .ODelay us => us < 4294967296
  | .SBusType flags => flags < 256
  | .OSpiOp rlen data => rlen < 16777216 ∧ data.length < 16777216
  | .SSpiFreq hz => hz < 4294967296
  | _ => True

instance (c : Command) : Decidable c.wellFormed := by
  cases c <;> simp only [Command.wellFormed] <;> infer_instance

/-- The two variants decoded through `complete::le_u32`. -/
def Command.usesCompleteU32 : Command → Bool
  | .ODelay _ => true
  | .SSpiFreq _ => true
  | _ => false

lemma le_u24_on_encode (n : Nat) (rest : List Nat) (h : n < 16777216) :
    le_u24_streaming (le24 n ++ rest) = .done rest n := by
  simp only [le24, List.cons_append, List.nil_append, le_u24_streaming]
  congr 1
  omega

lemma le_u32_on_encode (n : Nat) (rest : List Nat) (h : n < 4294967296) :
    le_u32_complete (le32 n ++ rest) = .done rest n := by
  simp only [le32, List.cons_append, List.nil_append, le_u32_complete]
  congr 1
  omega

lemma le_u24_exact (n : Nat) (h : n < 16777216) :
    le_u24_streaming (le24 n) = .done [] n := by
  simpa using le_u24_on_encode n [] h

lemma le_u32_exact (n : Nat) (h : n < 4294967296) :
    le_u32_complete (le32 n) = .done [] n := by
  simpa using le_u32_on_encode n [] h

lemma take_streaming_short (n : Nat) (l : List Nat) (h : l.length < n) :
    take_streaming n l = .incomplete := by
  simp [take_streaming, h]

lemma take_streaming_exact (l : List Nat) :
    take_streaming l.length l = .done [] l := by
  unfold take_streaming
  rw [if_neg (by simp)]
  simp

lemma owriten_take_shape (a : Nat) (d : List Nat) (j : Nat) :
    (0x0D :: ((le24 d.length ++ le24 a) ++ d)).take (7 + j)
      = 0x0D :: ((le24 d.length ++ le24 a) ++ d.take j) := by
  have hidlen : (le24 d.length ++ le24 a).length = 6 := by simp [le24]
  rw [show 7 + j = (6 + j) + 1 by omega]
  rw [List.take_succ_cons]
  rw [List.take_append_eq_append_take, hidlen]
  rw [List.take_of_length_le (by rw [hidlen]; omega)]
  rw [show 6 + j - 6 = j by omega]

lemma ospiop_take_shape (r : Nat) (d : List Nat) (j : Nat) :
    (0x13 :: ((le24 d.length ++ le24 r) ++ d)).take (7 + j)
      = 0x13 :: ((le24 d.length ++ le24 r) ++ d.take j) := by
  have hidlen : (le24 d.length ++ le24 r).length = 6 := by simp [le24]
  rw [show 7 + j = (6 + j) + 1 by omega]
  rw [List.take_succ_cons]
  rw [List.take_append_eq_append_take, hidlen]
  rw [List.take_of_length_le (by rw [hidlen]; omega)]
  rw [show 6 + j - 6 = j by omega]

/-- C2 counterexample: `[0x0E]` is a strict prefix of the wire encoding
of `ODelay(0)` (its opcode byte with the whole 4-byte payload held back),
yet `Command::parse` answers with a terminal decode failure, not the
streaming "incomplete" outcome — `odelay` is built on
`nom::number::complete::le_u32`. -/
theorem c2_truncated_odelay_is_failure :
    (Command.ODelay 0).wireEncode.take 1 = [0x0E] ∧
    1 < (Command.ODelay 0).wireEncode.length ∧
    Command.parse [0x0E] = .failure ∧
    Command.parse [0x0E] ≠ .incomplete := by decide

/-- C2 (amended): parsing the section-4.2 wire encoding of any
well-formed command round-trips — it yields the original command and
consumes exactly the encoded bytes — and every strict prefix of the
encoding yields the streaming "incomplete" outcome, except for the
`ODelay` and `SSpiFreq` variants, whose truncated payloads (any nonempty
strict prefix) yield a terminal decode failure because their `u32` field
is read with `complete::le_u32`. -/
theorem command_parse_roundtrip_and_prefixes (c : Command) (h : c.wellFormed) :
    Command.parse c.wireEncode = .done [] c ∧
    ∀ k, k < c.wireEncode.length →
      Command.parse (c.wireEncode.take k) =
        (if c.usesCompleteU32 = true ∧ 0 < k then .failure else .incomplete) := by
  cases c with
  | Nop =>
      refine ⟨by decide, fun k hk => ?_⟩
      simp only [Command.wireEncode, List.length_cons, List.length_nil] at hk
      interval_cases k <;> decide
  | QIface =>
      refine ⟨by decide, fun k hk => ?_⟩
      simp only [Command.wireEncode, List.length_cons, List.length_nil] at hk
      interval_cases k <;> decide
  | QCmdMap =>
      refine ⟨by decide, fun k hk => ?_⟩
      simp only [Command.wireEncode, List.length_cons, List.length_nil] at hk
      interval_cases k <;> decide
  | QPgmName =>
      refine ⟨by decide, fun k hk => ?_⟩
      simp only [Command.wireEncode, List.length_cons, List.length_nil] at hk
      interval_cases k <;> decide
  | QSerBuf =>
      refine ⟨by decide, fun k hk => ?_⟩
      simp only [Command.wireEncode, List.length_cons, List.length_nil] at hk
      interval_cases k <;> decide
  | QBusType =>
      refine ⟨by decide, fun k hk => ?_⟩
      simp only [Command.wireEncode, List.length_cons, List.length_nil] at hk
      interval_cases k <;> decide
  | QChipSize =>
      refine ⟨by decide, fun k hk => ?_⟩
      simp only [Command.wireEncode, List.length_cons, List.length_nil] at hk
      interval_cases k <;> decide
  | QOpBuf =>
      refine ⟨by decide, fun k hk => ?_⟩
      simp only [Command.wireEncode, List.length_cons, List.length_nil] at hk
      interval_cases k <;> decide
  | QWrnMaxLen =>
      refine ⟨by decide, fun k hk => ?_⟩
      simp only [Command.wireEncode, List.length_cons, List.length_nil] at hk
      interval_cases k <;> decide
  | OInit =>
      refine ⟨by decide, fun k hk => ?_⟩
      simp only [Command.wireEncode, List.length_cons, List.length_nil] at hk
      interval_cases k <;> decide
  | OExec =>
      refine ⟨by decide, fun k hk => ?_⟩
      simp only [Command.wireEncode, List.length_cons, List.length_nil] at hk
      interval_cases k <;> decide
  | SyncNop =>
      refine ⟨by decide, fun k hk => ?_⟩
      simp only [Command.wireEncode, List.length_cons, List.length_nil] at hk
      interval_cases k <;> decide
  | QRdnMaxLen =>
      refine ⟨by decide, fun k hk => ?_⟩
      simp only [Command.wireEncode, List.length_cons, List.length_nil] at hk
      interval_cases k <;> decide
  | RByte addr =>
      simp only [Command.wellFormed] at h
      refine ⟨?_, fun k hk => ?_⟩
      · simp only [Command.wireEncode, Command.parse, Command.opcode, le_u8_streaming,
          OpCode.from_u8, ParseResult.andThen, Command.rbyte]
        rw [le_u24_exact addr h]
      · simp only [Command.wireEncode, le24, List.length_cons, List.length_nil] at hk
        interval_cases k <;>
          simp [Command.wireEncode, le24, Command.parse, Command.opcode,
            le_u8_streaming, OpCode.from_u8, ParseResult.andThen, Command.rbyte,
            le_u24_streaming, Command.usesCompleteU32]
  | RNBytes addr n =>
      simp only [Command.wellFormed] at h
      obtain ⟨h1, h2⟩ := h
      refine ⟨?_, fun k hk => ?_⟩
      · simp only [Command.wireEncode, Command.parse, Command.opcode, le_u8_streaming,
          OpCode.from_u8, ParseResult.andThen, Command.rnbytes]
        rw [le_u24_on_encode addr _ h1]
        simp only [ParseResult.andThen]
        rw [le_u24_exact n h2]
      · simp only [Command.wireEncode, le24, List.length_cons, List.length_append,
          List.length_nil] at hk
        interval_cases k <;>
          simp [Command.wireEncode, le24, Command.parse, Command.opcode,
            le_u8_streaming, OpCode.from_u8, ParseResult.andThen, Command.rnbytes,
            le_u24_streaming, Command.usesCompleteU32]
  | OWriteB addr data =>
      simp only [Command.wellFormed] at h
      obtain ⟨h1, _h2⟩ := h
      refine ⟨?_, fun k hk => ?_⟩
      · simp only [Command.wireEncode, Command.parse, Command.opcode, le_u8_streaming,
          OpCode.from_u8, ParseResult.andThen, Command.owriteb]
        rw [le_u24_on_encode addr _ h1]
      · simp only [Command.wireEncode, le24, List.length_cons, List.length_append,
          List.length_nil] at hk
        interval_cases k <;>
          simp [Command.wireEncode, le24, Command.parse, Command.opcode,
            le_u8_streaming, OpCode.from_u8, ParseResult.andThen, Command.owriteb,
            le_u24_streaming, Command.usesCompleteU32]
  | OWriteN addr data =>
      simp only [Command.wellFormed] at h
      obtain ⟨h1, h2⟩ := h
      refine ⟨?_, fun k hk => ?_⟩
      · simp only [Command.wireEncode, Command.parse, Command.opcode, le_u8_streaming,
          OpCode.from_u8, ParseResult.andThen, Command.owriten]
        rw [List.append_assoc, le_u24_on_encode data.length _ h2]
        simp only [ParseResult.andThen]
        rw [le_u24_on_encode addr data h1]
        simp only [ParseResult.andThen]
        rw [take_streaming_exact]
      · simp only [Command.wireEncode, List.length_cons, List.length_append, le24,
          List.length_nil] at hk
        rcases Nat.lt_or_ge k 7 with hk7 | hk7
        · interval_cases k <;>
            simp [Command.wireEncode, le24, Command.parse, Command.opcode,
              le_u8_streaming, OpCode.from_u8, ParseResult.andThen, Command.owriten,
              le_u24_streaming, take_streaming, Command.usesCompleteU32]
        · obtain ⟨j, rfl⟩ : ∃ j, k = 7 + j := ⟨k - 7, by omega⟩
          simp only [Command.wireEncode]
          rw [owriten_take_shape]
          simp only [Command.parse, Command.opcode, le_u8_streaming, OpCode.from_u8,
            ParseResult.andThen, Command.owriten]
          rw [List.append_assoc, le_u24_on_encode data.length _ h2]
          simp only [ParseResult.andThen]
          rw [le_u24_on_encode addr _ h1]
          simp only [ParseResult.andThen]
          rw [take_streaming_short data.length (data.take j)
            (by rw [List.length_take]
                exact lt_of_le_of_lt (min_le_left j data.length) (by omega))]
          simp [Command.usesCompleteU32]
  | ODelay us =>
      simp only [Command.wellFormed] at h
      refine ⟨?_, fun k hk => ?_⟩
      · simp only [Command.wireEncode, Command.parse, Command.opcode, le_u8_streaming,
          OpCode.from_u8, ParseResult.andThen, Command.odelay]
        rw [le_u32_exact us h]
      · simp only [Command.wireEncode, le32, List.length_cons, List.length_nil] at hk
        interval_cases k <;>
          simp [Command.wireEncode, le32, Command.parse, Command.opcode,
            le_u8_streaming, OpCode.from_u8, ParseResult.andThen, Command.odelay,
            le_u32_complete, Command.usesCompleteU32]
  | SBusType flags =>
      refine ⟨rfl, fun k hk => ?_⟩
      simp only [Command.wireEncode, List.length_cons, List.length_nil] at hk
      interval_cases k <;>
        simp [Command.wireEncode, Command.parse, Command.opcode, le_u8_streaming,
          OpCode.from_u8, ParseResult.andThen, Command.sbustype,
          Command.usesCompleteU32]
  | OSpiOp rlen data =>
      simp only [Command.wellFormed] at h
      obtain ⟨h1, h2⟩ := h
      refine ⟨?_, fun k hk => ?_⟩
      · simp only [Command.wireEncode, Command.parse, Command.opcode, le_u8_streaming,
          OpCode.from_u8, ParseResult.andThen, Command.ospiop]
        rw [List.append_assoc, le_u24_on_encode data.length _ h2]
        simp only [ParseResult.andThen]
        rw [le_u24_on_encode rlen data h1]
        simp only [ParseResult.andThen]
        rw [take_streaming_exact]
      · simp only [Command.wireEncode, List.length_cons, List.length_append, le24,
          List.length_nil] at hk
        rcases Nat.lt_or_ge k 7 with hk7 | hk7
        · interval_cases k <;>
            simp [Command.wireEncode, le24, Command.parse, Command.opcode,
              le_u8_streaming, OpCode.from_u8, ParseResult.andThen, Command.ospiop,
              le_u24_streaming, take_streaming, Command.usesCompleteU32]
        · obtain ⟨j, rfl⟩ : ∃ j, k = 7 + j := ⟨k - 7, by omega⟩
          simp only [Command.wireEncode]
          rw [ospiop_take_shape]
          simp only [Command.parse, Command.opcode, le_u8_streaming, OpCode.from_u8,
            ParseResult.andThen, Command.ospiop]
          rw [List.append_assoc, le_u24_on_encode data.length _ h2]
          simp only [ParseResult.andThen]
          rw [le_u24_on_encode rlen _ h1]
          simp only [ParseResult.andThen]
          rw [take_streaming_short data.length (data.take j)
            (by rw [List.length_take]
                exact lt_of_le_of_lt (min_le_left j data.length) (by omega))]
          simp [Command.usesCompleteU32]
  | SSpiFreq hz =>
      simp only [Command.wellFormed] at h
      refine ⟨?_, fun k hk => ?_⟩
      · simp only [Command.wireEncode, Command.parse, Command.opcode, le_u8_streaming,
          OpCode.from_u8, ParseResult.andThen, Command.sspifreq]
        rw [le_u32_exact hz h]
      · simp only [Command.wireEncode, le32, List.length_cons, List.length_nil] at hk
        interval_cases k <;>
          simp [Command.wireEncode, le32, Command.parse, Command.opcode,
            le_u8_streaming, OpCode.from_u8, ParseResult.andThen, Command.sspifreq,
            le_u32_complete, Command.usesCompleteU32]
  | SPinState state =>
      cases state with
      | false =>
          refine ⟨by decide, fun k hk => ?_⟩
          simp only [Command.wireEncode, List.length_cons, List.length_nil] at hk
          interval_cases k <;> decide
      | true =>
          refine ⟨by decide, fun k hk => ?_⟩
          simp only [Command.wireEncode, List.length_cons, List.length_nil] at hk
          interval_cases k <;> decide

/-- Witness for `command_parse_roundtrip_and_prefixes` at `RByte 5` and
its one-byte prefix. -/
theorem command_parse_roundtrip_and_prefixes_witness :
    Command.wellFormed (.RByte 5) ∧
    Command.parse (Command.RByte 5).wireEncode = .done [] (.RByte 5) ∧
    Command.parse ((Command.RByte 5).wireEncode.take 1) = .incomplete :=
  ⟨by decide,
   (command_parse_roundtrip_and_prefixes (.RByte 5) (by decide)).1,
   by
    have h := (command_parse_roundtrip_and_prefixes (.RByte 5) (by decide)).2 1
      (by decide)
    simpa using h⟩

/-! ## ResponsePacket (src/response_packet.rs)

`to_bytes` writes into a caller-supplied `&mut [u8]`.  Rust's
`copy_from_slice` panics when source and destination lengths differ, and
range indexing `buf[a..b]` panics when `a > b` or `b > buf.len()`; both
panics are modelled as `none`/`.panic` outcomes.
-/

/-- `MAX_BUFFER_SIZE` (constants.rs line 18). -/
def MAX_BUFFER_SIZE : Nat := 128

/-- `ResponseType` (response_packet.rs lines 5-10). -/
inductive ResponseType where
  | Ack
  | Nak
deriving Repr, DecidableEq

/-- The `u8` discriminants `Ack = 0x06`, `Nak = 0x15`. -/
def ResponseType.toU8 : ResponseType → Nat
  | .Ack => 0x06
  | .Nak => 0x15

/-- `ResponsePacket` (response_packet.rs lines 12-49).  The `SpiOp`
payload field is the backing store of its `Buffer<[u8; MAX_BUFFER_SIZE]>`. -/
inductive ResponsePacket where
  | Nop
  | QIface (iface_version : Nat)
  | QCmdMap (cmd_map : List Nat)
  | QPgmName (pgm_name : List Nat)
  | QSerBuf (size : Nat)
  | QBusType (bus_type : Nat)
  | QOpBuf (size : Nat)
  | QWrnMaxLen (size : Nat)
  | SyncNop
  | SBusType (res : ResponseType)
  | SpiOp (res : ResponseType) (rlen : Nat) (data : List Nat)
  | SSpiFreq (res : ResponseType) (set_freq : Nat)
deriving Repr, DecidableEq

/-- `ResponsePacket::packet_size` (response_packet.rs lines 127-142). -/
def ResponsePacket.packet_size : ResponsePacket → Nat
  | .Nop => 1
  | .QIface _ => 3
  | .QCmdMap _ => 33
  | .QPgmName _ => 17
  | .QSerBuf _ => 3
  | .QBusType _ => 2
  | .QOpBuf _ => 3
  | .QWrnMaxLen _ => 4
  | .SyncNop => 2
  | .SBusType _ => 1
  | .SpiOp _ rlen _ => rlen + 1
  | .SSpiFreq _ _ => 5

/-- Rust `dst.copy_from_slice(src)`: panics (`none`) unless the lengths
agree, otherwise the destination becomes `src`. -/
def copy_from_slice (dst src : List Nat) : Option (List Nat) :=
  if dst.length = src.length then some src else none

/-- Rust `buf[a..b].copy_from_slice(src)`: the range indexing panics
(`none`) when `a > b` or `b > buf.len()`, then `copy_from_slice` panics
on a length mismatch; otherwise bytes `a..b` are replaced by `src`. -/
def setRange (buf : List Nat) (a b : Nat) (src : List Nat) : Option (List Nat) :=
  if a ≤ b ∧ b ≤ buf.length then
    match copy_from_slice ((buf.take b).drop a) src with
    | some s => some (buf.take a ++ s ++ buf.drop b)
    | none => none
  else
    none

/-- Rust `&l[..n]`: panics (`none`) when `n > l.len()`. -/
def sliceTo (l : List Nat) (n : Nat) : Option (List Nat) :=
  if n ≤ l.length then some (l.take n) else none

/-- Little-endian `u16::to_le_bytes`. -/
def le16 (n : Nat) : List Nat :=
  [n % 256, n / 256 % 256]

/-- Outcome of `ResponsePacket::to_bytes`: `Ok(count)` with the updated
buffer, the `BufferTooSmall` error, or a Rust panic. -/
inductive EncodeResult where
  | ok (buf : List Nat) (count : Nat)
  | bufferTooSmall (buf_size required : Nat)
  | panic
deriving Repr, DecidableEq

/-- `ResponsePacket::to_bytes` (response_packet.rs lines 54-125). -/
def ResponsePacket.to_bytes (p : ResponsePacket) (buf : List Nat) : EncodeResult :=
  if buf.length < p.packet_size then
    .bufferTooSmall buf.length p.packet_size
  else
    match p with
    | .Nop => .ok (buf.set 0 0x06) p.packet_size
    | .QIface iface_version =>
        match setRange (buf.set 0 0x06) 1 buf.length (le16 iface_version) with
        | some out => .ok out p.packet_size
        | none => .panic
    | .QCmdMap cmd_map =>
        match setRange (buf.set 0 0x06) 1 buf.length cmd_map with
        | some out => .ok out p.packet_size
        | none => .panic
    | .QPgmName pgm_name =>
        match setRange (buf.set 0 0x06) 1 buf.length pgm_name with
        | some out => .ok out p.packet_size
        | none => .panic
    | .QSerBuf size =>
        match setRange (buf.set 0 0x06) 1 buf.length (le16 size) with
        | some out => .ok out p.packet_size
        | none => .panic
    | .QBusType bus_type => .ok ((buf.set 0 0x06).set 1 bus_type) p.packet_size
    | .QOpBuf size =>
        match setRange (buf.set 0 0x06) 1 buf.length (le16 size) with
        | some out => .ok out p.packet_size
        | none => .panic
    | .QWrnMaxLen size =>
        match setRange (buf.set 0 0x06) 1 buf.length ((le32 size).take 3) with
        | some out => .ok out p.packet_size
        | none => .panic
    | .SyncNop => .ok ((buf.set 0 0x06).set 1 0x15) p.packet_size
    | .SBusType res => .ok (buf.set 0 res.toU8) p.packet_size
    | .SpiOp res rlen data =>
        match res with
        | .Nak => .ok (buf.set 0 ResponseType.Nak.toU8) p.packet_size
        | .Ack =>
            match sliceTo data rlen with
            | none => .panic
            | some src =>
                match setRange (buf.set 0 ResponseType.Ack.toU8) 1 rlen src with
                | some out => .ok out p.packet_size
                | none => .panic
    | .SSpiFreq res set_freq =>
        match res with
        | .Nak => .ok (buf.set 0 ResponseType.Nak.toU8) p.packet_size
        | .Ack =>
            match setRange (buf.set 0 ResponseType.Ack.toU8) 1 buf.length
                (le32 set_freq) with
            | some out => .ok out p.packet_size
            | none => .panic

/-- The fixed-size array fields carried by a `ResponsePacket` in Rust:
`cmd_map: [u8; 32]`, `pgm_name: [u8; 16]`, the `SpiOp` store
`[u8; MAX_BUFFER_SIZE]`. -/
def ResponsePacket.wf : ResponsePacket → Prop
  | .QCmdMap cmd_map => cmd_map.length = 32
  | .QPgmName pgm_name => pgm_name.length = 16
  | .SpiOp _ _ data => data.length = MAX_BUFFER_SIZE
  | _ => True

instance (p : ResponsePacket) : Decidable p.wf := by
  cases p <;> simp only [ResponsePacket.wf] <;> infer_instance

/-- The one variant whose encoder arm is structurally broken. -/
def ResponsePacket.isAckSpiOp : ResponsePacket → Bool
  | .SpiOp .Ack _ _ => true
  | _ => false

lemma setRange_tail (buf src : List Nat) (h : buf.length = src.length + 1) :
    setRange buf 1 buf.length src
      = some (buf.take 1 ++ src ++ buf.drop buf.length) := by
  unfold setRange copy_from_slice
  rw [if_pos ⟨by omega, le_refl _⟩]
  rw [if_pos (by simp; omega)]

/-- C1 counterexample: a 4-byte destination is longer than
`packet_size (QIface 1) = 3`, so the claim says `to_bytes` succeeds and
writes 3 bytes; instead the `buf[1..].copy_from_slice(..)` panics — the
destination tail has 3 bytes while `iface_version.to_le_bytes()` has 2. -/
theorem c1_qiface_longer_buffer_panics :
    (ResponsePacket.QIface 1).packet_size = 3 ∧
    3 < ([0, 0, 0, 0] : List Nat).length ∧
    (ResponsePacket.QIface 1).to_bytes [0, 0, 0, 0] = .panic := by decide

/-- C1 (amended): for every well-formed `ResponsePacket` and destination
`buf`: if `buf` is shorter than `packet_size` then `to_bytes` returns
`BufferTooSmall{buf_size, required}` and writes nothing; if `buf` has
exactly `packet_size` bytes then every variant except an Ack-status
`SpiOp` succeeds, writing exactly `packet_size` bytes and returning that
count (this includes the Nak-status `SpiOp` and `SSpiFreq` variants);
an Ack-status `SpiOp` panics on its internal slice arithmetic
(`buf[1..rlen]` against `data[..rlen]`) for every `rlen`.  Destinations
strictly longer than `packet_size` make the tail-filling variants panic
(see the counterexample), so the success guarantee holds only at the
exact size. -/
theorem response_to_bytes_spec (p : ResponsePacket) (buf : List Nat)
    (hwf : p.wf) :
    (buf.length < p.packet_size →
      p.to_bytes buf = .bufferTooSmall buf.length p.packet_size) ∧
    (buf.length = p.packet_size → p.isAckSpiOp = false →
      ∃ out, p.to_bytes buf = .ok out p.packet_size ∧
        out.length = p.packet_size) ∧
    (buf.length = p.packet_size → p.isAckSpiOp = true →
      p.to_bytes buf = .panic) := by
  refine ⟨fun hlt => ?_, fun hlen hack => ?_, fun hlen hack => ?_⟩
  · unfold ResponsePacket.to_bytes
    rw [if_pos hlt]
  · cases p with
    | Nop =>
        simp only [ResponsePacket.packet_size] at hlen ⊢
        unfold ResponsePacket.to_bytes
        rw [if_neg (by simp only [ResponsePacket.packet_size]; omega)]
        dsimp only [ResponsePacket.packet_size]
        exact ⟨_, rfl, by simp [hlen]⟩
    | QIface v =>
        simp only [ResponsePacket.packet_size] at hlen ⊢
        unfold ResponsePacket.to_bytes
        rw [if_neg (by simp only [ResponsePacket.packet_size]; omega)]
        dsimp only [ResponsePacket.packet_size]
        have hs : (buf.set 0 0x06).length = (le16 v).length + 1 := by
          simp [le16]
          omega
        have hset := setRange_tail (buf.set 0 0x06) (le16 v) hs
        simp only [List.length_set] at hset
        rw [hset]
        exact ⟨_, rfl, by simp [le16, hlen]⟩
    | QCmdMap m =>
        simp only [ResponsePacket.wf] at hwf
        simp only [ResponsePacket.packet_size] at hlen ⊢
        unfold ResponsePacket.to_bytes
        rw [if_neg (by simp only [ResponsePacket.packet_size]; omega)]
        dsimp only [ResponsePacket.packet_size]
        have hs : (buf.set 0 0x06).length = m.length + 1 := by
          simp
          omega
        have hset := setRange_tail (buf.set 0 0x06) m hs
        simp only [List.length_set] at hset
        rw [hset]
        exact ⟨_, rfl, by simp [hlen, hwf]⟩
    | QPgmName nm =>
        simp only [ResponsePacket.wf] at hwf
        simp only [ResponsePacket.packet_size] at hlen ⊢
        unfold ResponsePacket.to_bytes
        rw [if_neg (by simp only [ResponsePacket.packet_size]; omega)]
        dsimp only [ResponsePacket.packet_size]
        have hs : (buf.set 0 0x06).length = nm.length + 1 := by
          simp
          omega
        have hset := setRange_tail (buf.set 0 0x06) nm hs
        simp only [List.length_set] at hset
        rw [hset]
        exact ⟨_, rfl, by simp [hlen, hwf]⟩
    | QSerBuf size =>
        simp only [ResponsePacket.packet_size] at hlen ⊢
        unfold ResponsePacket.to_bytes
        rw [if_neg (by simp only [ResponsePacket.packet_size]; omega)]
        dsimp only [ResponsePacket.packet_size]
        have hs : (buf.set 0 0x06).length = (le16 size).length + 1 := by
          simp [le16]
          omega
        have hset := setRange_tail (buf.set 0 0x06) (le16 size) hs
        simp only [List.length_set] at hset
        rw [hset]
        exact ⟨_, rfl, by simp [le16, hlen]⟩
    | QBusType bt =>
        simp only [ResponsePacket.packet_size] at hlen ⊢
        unfold ResponsePacket.to_bytes
        rw [if_neg (by simp only [ResponsePacket.packet_size]; omega)]
        dsimp only [ResponsePacket.packet_size]
        exact ⟨_, rfl, by simp [hlen]⟩
    | QOpBuf size =>
        simp only [ResponsePacket.packet_size] at hlen ⊢
        unfold ResponsePacket.to_bytes
        rw [if_neg (by simp only [ResponsePacket.packet_size]; omega)]
        dsimp only [ResponsePacket.packet_size]
        have hs : (buf.set 0 0x06).length = (le16 size).length + 1 := by
          simp [le16]
          omega
        have hset := setRange_tail (buf.set 0 0x06) (le16 size) hs
        simp only [List.length_set] at hset
        rw [hset]
        exact ⟨_, rfl, by simp [le16, hlen]⟩
    | QWrnMaxLen size =>
        simp only [ResponsePacket.packet_size] at hlen ⊢
        unfold ResponsePacket.to_bytes
        rw [if_neg (by simp only [ResponsePacket.packet_size]; omega)]
        dsimp only [ResponsePacket.packet_size]
        have hs : (buf.set 0 0x06).length = ((le32 size).take 3).length + 1 := by
          simp [le32]
          omega
        have hset := setRange_tail (buf.set 0 0x06) ((le32 size).take 3) hs
        simp only [List.length_set] at hset
        rw [hset]
        exact ⟨_, rfl, by simp [le32, hlen]⟩
    | SyncNop =>
        simp only [ResponsePacket.packet_size] at hlen ⊢
        unfold ResponsePacket.to_bytes
        rw [if_neg (by simp only [ResponsePacket.packet_size]; omega)]
        dsimp only [ResponsePacket.packet_size]
        exact ⟨_, rfl, by simp [hlen]⟩
    | SBusType res =>
        simp only [ResponsePacket.packet_size] at hlen ⊢
        unfold ResponsePacket.to_bytes
        rw [if_neg (by simp only [ResponsePacket.packet_size]; omega)]
        dsimp only [ResponsePacket.packet_size]
        exact ⟨_, rfl, by simp [hlen]⟩
    | SpiOp res rlen data =>
        cases res with
        | Ack => simp [ResponsePacket.isAckSpiOp] at hack
        | Nak =>
            simp only [ResponsePacket.packet_size] at hlen ⊢
            unfold ResponsePacket.to_bytes
            rw [if_neg (by simp only [ResponsePacket.packet_size]; omega)]
            dsimp only [ResponsePacket.packet_size]
            exact ⟨_, rfl, by simp [hlen]⟩
    | SSpiFreq res f =>
        cases res with
        | Ack =>
            simp only [ResponsePacket.packet_size] at hlen ⊢
            unfold ResponsePacket.to_bytes
            rw [if_neg (by simp only [ResponsePacket.packet_size]; omega)]
            dsimp only [ResponsePacket.packet_size]
            have hs : (buf.set 0 ResponseType.Ack.toU8).length
                = (le32 f).length + 1 := by
              simp [le32]
              omega
            have hset := setRange_tail (buf.set 0 ResponseType.Ack.toU8) (le32 f) hs
            simp only [List.length_set] at hset
            rw [hset]
            exact ⟨_, rfl, by simp [le32, hlen]⟩
        | Nak =>
            simp only [ResponsePacket.packet_size] at hlen ⊢
            unfold ResponsePacket.to_bytes
            rw [if_neg (by simp only [ResponsePacket.packet_size]; omega)]
            dsimp only [ResponsePacket.packet_size]
            exact ⟨_, rfl, by simp [hlen]⟩
  · cases p with
    | SpiOp res rlen data =>
        cases res with
        | Nak => simp [ResponsePacket.isAckSpiOp] at hack
        | Ack =>
            simp only [ResponsePacket.wf] at hwf
            simp only [ResponsePacket.packet_size] at hlen
            unfold ResponsePacket.to_bytes
            rw [if_neg (by simp only [ResponsePacket.packet_size]; omega)]
            dsimp only
            by_cases hr : rlen ≤ data.length
            · unfold sliceTo
              rw [if_pos hr]
              dsimp only
              unfold setRange
              by_cases hz : rlen = 0
              · rw [if_neg (by omega)]
              · rw [if_pos ⟨by omega, by simp; omega⟩]
                unfold copy_from_slice
                rw [if_neg (by simp; omega)]
            · unfold sliceTo
              rw [if_neg hr]
    | Nop => simp [ResponsePacket.isAckSpiOp] at hack
    | QIface v => simp [ResponsePacket.isAckSpiOp] at hack
    | QCmdMap m => simp [ResponsePacket.isAckSpiOp] at hack
    | QPgmName nm => simp [ResponsePacket.isAckSpiOp] at hack
    | QSerBuf size => simp [ResponsePacket.isAckSpiOp] at hack
    | QBusType bt => simp [ResponsePacket.isAckSpiOp] at hack
    | QOpBuf size => simp [ResponsePacket.isAckSpiOp] at hack
    | QWrnMaxLen size => simp [ResponsePacket.isAckSpiOp] at hack
    | SyncNop => simp [ResponsePacket.isAckSpiOp] at hack
    | SBusType res => simp [ResponsePacket.isAckSpiOp] at hack
    | SSpiFreq res f => simp [ResponsePacket.isAckSpiOp] at hack

/-- Witness for `response_to_bytes_spec`: `QIface 1` into an exactly
3-byte destination encodes successfully, and a 2-byte destination is
rejected with `BufferTooSmall`. -/
theorem response_to_bytes_spec_witness :
    (ResponsePacket.QIface 1).wf ∧
    (∃ out, (ResponsePacket.QIface 1).to_bytes [0, 0, 0] = .ok out 3 ∧
      out.length = 3) ∧
    (ResponsePacket.QIface 1).to_bytes [0, 0] = .bufferTooSmall 2 3 :=
  ⟨by decide,
   (response_to_bytes_spec (.QIface 1) [0, 0, 0] (by decide)).2.1 (by decide) rfl,
   (response_to_bytes_spec (.QIface 1) [0, 0] (by decide)).1 (by decide)⟩

/-! ## SpiManager (src/spi.rs)

`SpiManager` holds two `Option` fields, `disabled` and `enabled`, of
which the implementation keeps exactly one populated.  Pins and the raw
peripheral carried by `SpiDisabled`/`SpiEnabled` have no observable
state beyond the chip-select level, which we expose as an event trace;
`SpiEnabled`'s configured peripheral is represented by its clock
frequency.  The HAL's `spi.write`/`spi.transfer` outcomes are hardware
inputs, modelled as the `writeOk`/`readOk` oracles; `cs.set_low`/
`cs.set_high` on a push-pull output pin are infallible
(`Error = Infallible` in stm32f1xx-hal). -/

inductive SpiDisabled where
  | mk
deriving Repr, DecidableEq

structure SpiEnabled where
  freq : Nat
deriving Repr, DecidableEq

structure SpiManager where
  disabled : Option SpiDisabled
  enabled : Option SpiEnabled
  last_freq : Nat
deriving Repr, DecidableEq

/-- `SpiManager::new` (spi.rs lines 56-76): starts Disabled with
`last_freq = 1 MHz`. -/
def SpiManager.new : SpiManager :=
  { disabled := some .mk, enabled := none, last_freq := 1000000 }

/-- `SpiManager::disable` (spi.rs lines 78-89). -/
def SpiManager.disable (m : SpiManager) : SpiManager :=
  match m.enabled with
  | some _ => { m with enabled := none, disabled := some .mk }
  | none => m

/-- `SpiManager::enable` (spi.rs lines 95-118). -/
def SpiManager.enable (m : SpiManager) (freq : Nat) : SpiManager :=
  match m.disabled with
  | some _ => { m with disabled := none, enabled := some ⟨freq⟩ }
  | none => m

/-- `SpiManager::is_disabled` (spi.rs line 91). -/
def SpiManager.is_disabled (m : SpiManager) : Bool :=
  m.disabled.isSome

/-- `SpiManager::configure` (spi.rs lines 121-136): remember the
frequency, then disable-and-enable (or just enable) at it. -/
def SpiManager.configure (m : SpiManager) (freq : Nat) : SpiManager :=
  let m' := { m with last_freq := freq }
  if m'.enabled.isSome then (m'.disable).enable freq else m'.enable freq

/-- Chip-select pin edges emitted during a transfer. -/
inductive CsEvent where
  | low
  | high
deriving Repr, DecidableEq

/-- `SpiManager::transfer_with_cs` (spi.rs lines 139-180): when Enabled,
assert CS low; shift out `write_data` if nonempty (oracle `writeOk`),
deasserting CS and failing on error; fill `read_buffer` with `0xFF` and
run the full-duplex transfer if nonempty (oracle `readOk`, received
bytes `rx`), deasserting CS and failing on error; finally deassert CS
and succeed.  When Disabled, fail without touching CS.  Returns the CS
event trace, the final contents of `read_buffer`, and the `Result`. -/
def SpiManager.transfer_with_cs (m : SpiManager) (writeOk readOk : Bool)
    (rx : Nat → Nat) (write_data read_buffer : List Nat) :
    List CsEvent × List Nat × Except Unit Unit :=
  match m.enabled with
  | none => ([], read_buffer, .error ())
  | some _ =>
    if write_data ≠ [] ∧ writeOk = false then
      ([.low, .high], read_buffer, .error ())
    else if read_buffer ≠ [] then
      if readOk = false then
        ([.low, .high], read_buffer.map (fun _ => 0xFF), .error ())
      else
        ([.low, .high], (List.range read_buffer.length).map rx, .ok ())
    else
      ([.low, .high], read_buffer, .ok ())

/-! ## SerProg dispatcher (src/serprog.rs) -/

/-- `I_FACE_VERSION` (constants.rs line 3). -/
def I_FACE_VERSION : Nat := 1

/-- `PGM_NAME` (constants.rs line 4): the bytes of `"stm32-vserprog"`. -/
def PGM_NAME : List Nat :=
  [0x73, 0x74, 0x6D, 0x33, 0x32, 0x2D, 0x76, 0x73, 0x65, 0x72, 0x70, 0x72,
   0x6F, 0x67]

/-- `SUPPORTED_BUS` (constants.rs line 6): SPI only, bit 3. -/
def SUPPORTED_BUS : Nat := 8

/-- `CMD_MAP` (constants.rs lines 7-17): a `u32` bitmap of the opcodes
with handlers. -/
def CMD_MAP : Nat :=
  2 ^ 0 + 2 ^ 1 + 2 ^ 2 + 2 ^ 3 + 2 ^ 4 + 2 ^ 5 + 2 ^ 16 + 2 ^ 18 + 2 ^ 19 +
    2 ^ 20 + 2 ^ 21

/-- `OP_BUF_SIZE` (serprog.rs line 39). -/
def OP_BUF_SIZE : Nat := 1024

/-- `SER_BUF_SIZE` (serprog.rs line 40). -/
def SER_BUF_SIZE : Nat := 1024

/-- `SerProgError` (serprog.rs lines 29-37). -/
inductive SerProgError where
  | WriteFail
  | ReadFail
  | NotImplemented (opcode : OpCode)
deriving Repr, DecidableEq

/-- Outcome of a handler call: `Ok(ResponsePacket)`, `Err(SerProgError)`,
or a Rust panic (`unimplemented!`, `copy_from_slice` mismatch, failed
`unwrap`). -/
inductive HResult where
  | ok (resp : ResponsePacket)
  | err (e : SerProgError)
  | panic
deriving Repr, DecidableEq

/-- `SerProg` (serprog.rs lines 16-27): the dispatcher state.  The serial
port and USB device have no modelled state; the two staging buffers are
plain `Buffer`s. -/
structure SerProg where
  spi_manager : Option SpiManager
  op_buf : Buffer
  ser_buf : Buffer
deriving Repr, DecidableEq

/-- `SerProg::new` (serprog.rs lines 48-60). -/
def SerProg.new (m : SpiManager) : SerProg :=
  { spi_manager := some m,
    op_buf := Buffer.new (List.replicate OP_BUF_SIZE 0),
    ser_buf := Buffer.new (List.replicate SER_BUF_SIZE 0) }

/-- Modelled from the spec: serprog.rs calls `Buffer::len` on its
buffers (`self.op_buf.len()`, `self.ser_buf.len()`), a method absent
from src/src/buffer.rs; per the spec's `QSerBuf`/`QOpBuf` advertisements
it is the fixed capacity, i.e. the backing store's length. -/
def Buffer.len (b : Buffer) : Nat :=
  b.store.length

/-- Rust `usize::try_into::<u16>() .unwrap()`: panics (`none`) above
`u16::MAX`. -/
def try_into_u16 (n : Nat) : Option Nat :=
  if n < 65536 then some n else none

/-- Rust `usize::try_into::<u32>() .unwrap()`: panics (`none`) above
`u32::MAX`. -/
def try_into_u32 (n : Nat) : Option Nat :=
  if n < 4294967296 then some n else none

/-- `SerProg::handle_q_op_buf` (serprog.rs lines 126-130). -/
def SerProg.handle_q_op_buf (s : SerProg) : SerProg × HResult :=
  match try_into_u16 s.op_buf.len with
  | some size => (s, .ok (.QOpBuf size))
  | none => (s, .panic)

/-- `SerProg::handle_q_wrn_max_len` (serprog.rs lines 132-136). -/
def SerProg.handle_q_wrn_max_len (s : SerProg) : SerProg × HResult :=
  match try_into_u32 s.ser_buf.len with
  | some size => (s, .ok (.QWrnMaxLen size))
  | none => (s, .panic)

/-- `SerProg::handle_q_chip_size` (serprog.rs lines 138-143). -/
def SerProg.handle_q_chip_size (s : SerProg) : SerProg × HResult :=
  (s, .err (.NotImplemented .QChipSize))

/-- `SerProg::handle_r_byte` (serprog.rs lines 145-150). -/
def SerProg.handle_r_byte (s : SerProg) (_address : Nat) : SerProg × HResult :=
  (s, .err (.NotImplemented .RByte))

/-- `SerProg::handle_q_iface` (serprog.rs lines 152-156). -/
def SerProg.handle_q_iface (s : SerProg) : SerProg × HResult :=
  (s, .ok (.QIface I_FACE_VERSION))

/-- `SerProg::handle_q_cmd_map` (serprog.rs lines 158-166): copies the
4-byte `CMD_MAP.to_le_bytes()` into the 32-byte `cmd_map` array with
`copy_from_slice` — a length mismatch, hence a panic. -/
def SerProg.handle_q_cmd_map (s : SerProg) : SerProg × HResult :=
  match copy_from_slice (List.replicate 32 0) (le32 CMD_MAP) with
  | some cmd_map => (s, .ok (.QCmdMap cmd_map))
  | none => (s, .panic)

/-- `SerProg::handle_q_pgm_name` (serprog.rs lines 168-176). -/
def SerProg.handle_q_pgm_name (s : SerProg) : SerProg × HResult :=
  match setRange (List.replicate 16 0) 0 PGM_NAME.length PGM_NAME with
  | some pgm_name => (s, .ok (.QPgmName pgm_name))
  | none => (s, .panic)

/-- `SerProg::handle_q_serbuf` (serprog.rs lines 178-183). -/
def SerProg.handle_q_serbuf (s : SerProg) : SerProg × HResult :=
  match try_into_u16 s.ser_buf.len with
  | some size => (s, .ok (.QSerBuf size))
  | none => (s, .panic)

/-- `SerProg::handle_q_bus_type` (serprog.rs lines 185-189): always
`BusType::SPI`. -/
def SerProg.handle_q_bus_type (s : SerProg) : SerProg × HResult :=
  (s, .ok (.QBusType SUPPORTED_BUS))

/-- `SerProg::handle_sync_nop` (serprog.rs lines 191-193). -/
def SerProg.handle_sync_nop (s : SerProg) : SerProg × HResult :=
  (s, .ok .SyncNop)

/-- `SerProg::handle_s_bus_type` (serprog.rs lines 195-202): Ack exactly
for `BusType::SPI` (flags = 8). -/
def SerProg.handle_s_bus_type (s : SerProg) (flags : Nat) : SerProg × HResult :=
  (s, .ok (.SBusType (if flags = 8 then .Ack else .Nak)))

/-- Modelled from the spec: `SpiManager::read_write`, the transfer entry
point `handle_o_spi_op` calls, is not present in src/src/spi.rs (the
file holds the `transfer_with_cs` revision instead).  Per spec section
4.5 a transfer fails when the link is Disabled and may fail
mid-transfer (the `hw` oracle); on success it hands back the filled rx
buffer, the tx buffer, and the manager. -/
def SpiManager.read_write (m : SpiManager) (hw : Bool) (rx_store : List Nat)
    (rx : Nat → Nat) (tx : List Nat) :
    Except Unit (List Nat × List Nat × SpiManager) :=
  if m.enabled.isSome && hw then
    .ok ((List.range rx_store.length).map rx, tx, m)
  else
    .error ()

/-- `SerProg::handle_o_spi_op` (serprog.rs lines 204-227): `take` the
manager, run `read_write`, put the manager back and answer `Ack` on
success; on failure (`None` manager or transfer error) propagate
`Err(WriteFail)` with the manager still taken. -/
def SerProg.handle_o_spi_op (s : SerProg) (hw : Bool) (rx : Nat → Nat)
    (rlen : Nat) (tx_data : List Nat) : SerProg × HResult :=
  match s.spi_manager with
  | none => ({ s with spi_manager := none }, .err .WriteFail)
  | some spi =>
    match spi.read_write hw (List.replicate MAX_BUFFER_SIZE 0) rx tx_data with
    | .error _ => ({ s with spi_manager := none }, .err .WriteFail)
    | .ok (rx_buf, _tx, spi2) =>
        ({ s with spi_manager := some spi2 }, .ok (.SpiOp .Ack rlen rx_buf))

/-- `SerProg::handle_s_spi_freq` (serprog.rs lines 229-247). -/
def SerProg.handle_s_spi_freq (s : SerProg) (freq : Nat) : SerProg × HResult :=
  if freq = 0 then
    (s, .ok (.SSpiFreq .Nak 0))
  else
    ({ s with spi_manager := s.spi_manager.map (fun m => m.configure freq) },
     .ok (.SSpiFreq .Ack freq))

/-- `SerProg::handle_command` (serprog.rs lines 104-124).  The wildcard
arm is `unimplemented!("command not implemented")`, a panic. -/
def SerProg.handle_command (s : SerProg) (hw : Bool) (rx : Nat → Nat) :
    Command → SerProg × HResult
  | .Nop => (s, .ok .Nop)
  | .QIface => s.handle_q_iface
  | .QCmdMap => s.handle_q_cmd_map
  | .QPgmName => s.handle_q_pgm_name
  | .QSerBuf => s.handle_q_serbuf
  | .QBusType => s.handle_q_bus_type
  | .QChipSize => s.handle_q_chip_size
  | .QOpBuf => s.handle_q_op_buf
  | .QWrnMaxLen => s.handle_q_wrn_max_len
  | .RByte addr => s.handle_r_byte addr
  | .SyncNop => s.handle_sync_nop
  | .SBusType flags => s.handle_s_bus_type flags
  | .OSpiOp rlen data => s.handle_o_spi_op hw rx rlen data
  | .SSpiFreq freq => s.handle_s_spi_freq freq
  | _ => (s, .panic)

/-- The decode loop of `SerProg::process_command` (serprog.rs lines
66-82): fill the buffer from the serial port via `write_all`, decode the
unread region; loop on `Incomplete`, report `ReadFail` on a serial or
decode error, otherwise yield the byte count and command.  `serial i` is
the transport's read closure at loop iteration `i`; `fuel` bounds the
number of iterations modelled (`none` = still looping). -/
def SerProg.process_loop (serial : Nat → List Nat → List Nat × Except Unit Nat) :
    Nat → Nat → Buffer → Option (Buffer × Except SerProgError (Nat × Command))
  | 0, _, _ => none
  | fuel + 1, i, b =>
    match b.write_all b.available_write (serial i) with
    | (b2, .error _) => some (b2, .error .ReadFail)
    | (b2, .ok _) =>
      match b2.read b2.available_read Command.parse with
      | .incomplete => SerProg.process_loop serial fuel (i + 1) b2
      | .failure => some (b2, .error .ReadFail)
      | .done rest cmd => some (b2, .ok (b2.available_read - rest.length, cmd))

/-- `SerProg::process_command` (serprog.rs lines 62-89): run the decode
loop, then `handle_command`, and only after a successful handler call
`buffer.consume(bytes_parsed)`.  A handler `Err` propagates via `?`
before the `consume`. -/
def SerProg.process_command (s : SerProg) (hw : Bool) (rx : Nat → Nat)
    (serial : Nat → List Nat → List Nat × Except Unit Nat) (fuel : Nat)
    (b : Buffer) : Option (SerProg × Buffer × HResult) :=
  match SerProg.process_loop serial fuel 0 b with
  | none => none
  | some (b2, .error e) => some (s, b2, .err e)
  | some (b2, .ok (bytes_parsed, cmd)) =>
    match s.handle_command hw rx cmd with
    | (s2, .ok resp) => some (s2, b2.consume bytes_parsed, .ok resp)
    | (s2, .err e) => some (s2, b2, .err e)
    | (s2, .panic) => some (s2, b2, .panic)

/-- A dispatcher state as built by `main` (main.rs lines 101-104):
fresh `SpiManager` (Disabled), fresh buffers. -/
def serprogInit : SerProg :=
  SerProg.new SpiManager.new

lemma SerProg.handle_o_spi_op_cases (s : SerProg) (hw : Bool) (rx : Nat → Nat)
    (rlen : Nat) (tx : List Nat) :
    (s.spi_manager = none →
      s.handle_o_spi_op hw rx rlen tx
        = ({ s with spi_manager := none }, .err .WriteFail)) ∧
    (∀ m, s.spi_manager = some m → (m.enabled = none ∨ hw = false) →
      s.handle_o_spi_op hw rx rlen tx
        = ({ s with spi_manager := none }, .err .WriteFail)) ∧
    (∀ m, s.spi_manager = some m → m.enabled.isSome = true → hw = true →
      s.handle_o_spi_op hw rx rlen tx
        = ({ s with spi_manager := some m },
           .ok (.SpiOp .Ack rlen ((List.range MAX_BUFFER_SIZE).map rx)))) := by
  refine ⟨fun h => ?_, fun m h hfail => ?_, fun m h he hhw => ?_⟩
  · unfold SerProg.handle_o_spi_op
    rw [h]
  · have hcond : (m.enabled.isSome && hw) = false := by
      rcases hfail with h1 | h1 <;> simp [h1]
    unfold SerProg.handle_o_spi_op
    rw [h]
    dsimp only
    unfold SpiManager.read_write
    rw [if_neg (by rw [hcond]; simp)]
  · have hcond : (m.enabled.isSome && hw) = true := by rw [he, hhw]; rfl
    unfold SerProg.handle_o_spi_op
    rw [h]
    dsimp only
    unfold SpiManager.read_write
    rw [if_pos (by rw [hcond])]
    dsimp only
    rw [List.length_replicate]

/-- C3 counterexample: the spec scenario — `OSpiOp{slen=2, rlen=2,
data=[0xAA,0xBB]}` while the SPI link is Disabled (the freshly
constructed dispatcher) — makes `handle_o_spi_op` return
`Err(WriteFail)` to the caller, aborting the command, not the claimed
zero-length Nak response. -/
theorem c3_disabled_spiop_aborts_command :
    (serprogInit.handle_command true (fun _ => 0) (.OSpiOp 2 [0xAA, 0xBB])).2
      = .err .WriteFail ∧
    (serprogInit.handle_command true (fun _ => 0) (.OSpiOp 2 [0xAA, 0xBB])).2
      ≠ .ok (.SpiOp .Nak 0 (List.replicate MAX_BUFFER_SIZE 0)) :=
  ⟨rfl, by decide⟩

/-- C3 (amended): `handle_o_spi_op` performs no `slen`/`rlen` validation
at all (the success clause below holds for every `rlen` and every
payload), and on any SPI transfer failure — the manager already taken,
the link Disabled, or a mid-transfer error — it returns the
`Err(WriteFail)` error to its caller, aborting the command, instead of a
zero-length Nak response. -/
theorem handle_o_spi_op_failure_aborts (s : SerProg) (hw : Bool)
    (rx : Nat → Nat) (rlen : Nat) (tx : List Nat) :
    (s.spi_manager = none →
      s.handle_o_spi_op hw rx rlen tx
        = ({ s with spi_manager := none }, .err .WriteFail)) ∧
    (∀ m, s.spi_manager = some m → (m.enabled = none ∨ hw = false) →
      s.handle_o_spi_op hw rx rlen tx
        = ({ s with spi_manager := none }, .err .WriteFail)) ∧
    (∀ m, s.spi_manager = some m → m.enabled.isSome = true → hw = true →
      s.handle_o_spi_op hw rx rlen tx
        = ({ s with spi_manager := some m },
           .ok (.SpiOp .Ack rlen ((List.range MAX_BUFFER_SIZE).map rx)))) :=
  SerProg.handle_o_spi_op_cases s hw rx rlen tx

/-- Witness for `handle_o_spi_op_failure_aborts`: the Disabled-link
scenario from the spec aborts with `WriteFail`. -/
theorem handle_o_spi_op_failure_aborts_witness :
    serprogInit.handle_o_spi_op true (fun _ => 0) 2 [0xAA, 0xBB]
      = ({ serprogInit with spi_manager := none }, .err .WriteFail) :=
  (handle_o_spi_op_failure_aborts serprogInit true (fun _ => 0) 2
    [0xAA, 0xBB]).2.1 SpiManager.new rfl (Or.inl rfl)

/-- C4 counterexample: `ODelay` is a recognized opcode with no handler in
the SPI-only profile, but `handle_command` hits the
`unimplemented!("command not implemented")` wildcard arm — a panic — not
the claimed `NotImplemented{opcode}` error. -/
theorem c4_odelay_panics :
    (serprogInit.handle_command true (fun _ => 0) (.ODelay 1000)).2 = .panic ∧
    (serprogInit.handle_command true (fun _ => 0) (.ODelay 1000)).2
      ≠ .err (.NotImplemented .ODelay) :=
  ⟨rfl, by decide⟩

/-- C4 (amended): of the opcodes without a real handler, only `RByte`
and `QChipSize` return `NotImplemented{opcode}` (their stub handlers
produce no response bytes); the other decodable commands without a
handler — `RNBytes`, `OInit`, `OWriteB`, `OWriteN`, `ODelay`, `OExec`,
`QRdnMaxLen`, `SPinState` — fall into the `unimplemented!` wildcard arm
and panic. -/
theorem handle_command_unhandled_opcodes (s : SerProg) (hw : Bool)
    (rx : Nat → Nat) (addr n us data : Nat) (dl : List Nat) (st : Bool) :
    (s.handle_command hw rx (.RByte addr)).2 = .err (.NotImplemented .RByte) ∧
    (s.handle_command hw rx .QChipSize).2 = .err (.NotImplemented .QChipSize) ∧
    (s.handle_command hw rx (.RNBytes addr n)).2 = .panic ∧
    (s.handle_command hw rx .OInit).2 = .panic ∧
    (s.handle_command hw rx (.OWriteB addr data)).2 = .panic ∧
    (s.handle_command hw rx (.OWriteN addr dl)).2 = .panic ∧
    (s.handle_command hw rx (.ODelay us)).2 = .panic ∧
    (s.handle_command hw rx .OExec).2 = .panic ∧
    (s.handle_command hw rx .QRdnMaxLen).2 = .panic ∧
    (s.handle_command hw rx (.SPinState st)).2 = .panic :=
  ⟨rfl, rfl, rfl, rfl, rfl, rfl, rfl, rfl, rfl, rfl⟩

/-- The transport read closure returning `Ok(0)` (no data available),
used by the concrete dispatch scenarios. -/
def serialNone : Nat → List Nat → List Nat × Except Unit Nat :=
  fun _ region => (region, .ok 0)

/-- An 8-byte staging buffer already holding the 4-byte encoding of
`RByte 0` as its unread region. -/
def bufC5 : Buffer :=
  ⟨[0x09, 0, 0, 0, 0, 0, 0, 0], 0, 4⟩

/-- A 2-byte staging buffer holding the 1-byte encoding of `Nop`. -/
def bufNop : Buffer :=
  ⟨[0, 0], 0, 1⟩

/-- C5 counterexample: a buffer holding the `RByte 0` encoding decodes
successfully, the handler then returns `Err(NotImplemented)`, and
`process_command` propagates the error before ever calling
`buffer.consume` — the 4 parsed bytes are still unread afterwards,
contradicting the claimed consume-first ordering. -/
theorem c5_handler_error_leaves_bytes_unconsumed :
    serprogInit.process_command true (fun _ => 0) serialNone 1 bufC5
      = some (serprogInit, bufC5, .err (.NotImplemented .RByte)) ∧
    bufC5.rpos = 0 ∧ bufC5.available_read = 4 :=
  ⟨rfl, rfl, rfl⟩

/-- C5 (amended): after the decode loop yields a command,
`handle_command` runs first; `buffer.consume(bytes_parsed)` is called
only when the handler returns `Ok`, so on a handler error the parsed
bytes remain in the buffer's unread region. -/
theorem process_command_consume_order (s : SerProg) (hw : Bool)
    (rx : Nat → Nat) (serial : Nat → List Nat → List Nat × Except Unit Nat)
    (fuel : Nat) (b b2 : Buffer) (bytes : Nat) (cmd : Command)
    (hloop : SerProg.process_loop serial fuel 0 b = some (b2, .ok (bytes, cmd))) :
    (∀ s2 resp, s.handle_command hw rx cmd = (s2, .ok resp) →
      s.process_command hw rx serial fuel b
        = some (s2, b2.consume bytes, .ok resp)) ∧
    (∀ s2 e, s.handle_command hw rx cmd = (s2, .err e) →
      s.process_command hw rx serial fuel b = some (s2, b2, .err e)) := by
  constructor
  · intro s2 resp hh
    unfold SerProg.process_command
    rw [hloop]
    dsimp only
    rw [hh]
  · intro s2 e hh
    unfold SerProg.process_command
    rw [hloop]
    dsimp only
    rw [hh]

/-- Witness for `process_command_consume_order`: a buffered `Nop` is
decoded, handled successfully, and its byte is consumed. -/
theorem process_command_consume_order_witness :
    serprogInit.process_command true (fun _ => 0) serialNone 1 bufNop
      = some (serprogInit, bufNop.consume 1, .ok .Nop) :=
  (process_command_consume_order serprogInit true (fun _ => 0) serialNone 1
    bufNop bufNop 1 .Nop rfl).1 serprogInit .Nop rfl

/-- C6: `transfer_with_cs` called while Disabled fails immediately with
no chip-select activity at all; called while Enabled it asserts CS low
once and deasserts CS high exactly once — the event trace is exactly
`[low, high]` — on the success path and on both intermediate-failure
paths (write-phase error, read-phase error). -/
theorem transfer_with_cs_chip_select (m : SpiManager) (writeOk readOk : Bool)
    (rx : Nat → Nat) (write_data read_buffer : List Nat) :
    (m.enabled = none →
      m.transfer_with_cs writeOk readOk rx write_data read_buffer
        = ([], read_buffer, .error ())) ∧
    (m.enabled.isSome = true →
      (m.transfer_with_cs writeOk readOk rx write_data read_buffer).1
        = [.low, .high]) := by
  constructor
  · intro h
    unfold SpiManager.transfer_with_cs
    rw [h]
  · intro h
    obtain ⟨e, he⟩ := Option.isSome_iff_exists.mp h
    unfold SpiManager.transfer_with_cs
    rw [he]
    dsimp only
    split
    · rfl
    · split
      · split <;> rfl
      · rfl

/-- Witness for `transfer_with_cs_chip_select`: an enabled link emits
`[low, high]`; a disabled one fails with no CS events. -/
theorem transfer_with_cs_chip_select_witness :
    ((SpiManager.new.enable 1000).transfer_with_cs true false (fun _ => 0)
      [1] [2]).1 = [.low, .high] ∧
    SpiManager.new.transfer_with_cs true true (fun _ => 0) [1] [2]
      = ([], [2], .error ()) :=
  ⟨(transfer_with_cs_chip_select (SpiManager.new.enable 1000) true false
      (fun _ => 0) [1] [2]).2 rfl,
   (transfer_with_cs_chip_select SpiManager.new true true
      (fun _ => 0) [1] [2]).1 rfl⟩

/-- C7: `SSpiFreq(0)` answers `Nak` with `set_freq = 0` and leaves the
dispatcher (hence the SPI link) completely untouched; any nonzero
frequency `f` answers `Ack` with `set_freq = f` and drives
`SpiLink::configure`, after which the link is Enabled at `f` and `f` is
the remembered `last_freq`.  The hypothesis that one of the two manager
fields is populated holds for every manager the code can build
(`new`/`enable`/`disable`/`configure` all preserve it). -/
theorem handle_s_spi_freq_spec (s : SerProg) (freq : Nat) (m : SpiManager)
    (h : s.spi_manager = some m)
    (hm : m.disabled.isSome = true ∨ m.enabled.isSome = true) :
    (freq = 0 → s.handle_s_spi_freq freq = (s, .ok (.SSpiFreq .Nak 0))) ∧
    (freq ≠ 0 →
      (s.handle_s_spi_freq freq).2 = .ok (.SSpiFreq .Ack freq) ∧
      (s.handle_s_spi_freq freq).1.spi_manager = some (m.configure freq) ∧
      (m.configure freq).enabled = some ⟨freq⟩ ∧
      (m.configure freq).last_freq = freq) := by
  have hconf : (m.configure freq).enabled = some ⟨freq⟩ ∧
      (m.configure freq).last_freq = freq := by
    rcases m with ⟨d, e, lf⟩
    cases e with
    | some e0 =>
        simp [SpiManager.configure, SpiManager.disable, SpiManager.enable]
    | none =>
        cases d with
        | some d0 =>
            simp [SpiManager.configure, SpiManager.disable, SpiManager.enable]
        | none => simp at hm
  constructor
  · intro h0
    subst h0
    rfl
  · intro hne
    unfold SerProg.handle_s_spi_freq
    rw [if_neg hne]
    refine ⟨rfl, ?_, hconf.1, hconf.2⟩
    dsimp only
    rw [h]
    rfl

/-- Witness for `handle_s_spi_freq_spec`: the spec scenario —
`SSpiFreq(0)` is a Nak no-op on the fresh (Disabled) dispatcher, and
`SSpiFreq(1_000_000)` acks and enables the link at 1 MHz. -/
theorem handle_s_spi_freq_spec_witness :
    serprogInit.handle_s_spi_freq 0 = (serprogInit, .ok (.SSpiFreq .Nak 0)) ∧
    (serprogInit.handle_s_spi_freq 1000000).2
      = .ok (.SSpiFreq .Ack 1000000) ∧
    (SpiManager.new.configure 1000000).enabled = some ⟨1000000⟩ :=
  ⟨(handle_s_spi_freq_spec serprogInit 0 SpiManager.new rfl (Or.inl rfl)).1 rfl,
   ((handle_s_spi_freq_spec serprogInit 1000000 SpiManager.new rfl
      (Or.inl rfl)).2 (by decide)).1,
   ((handle_s_spi_freq_spec serprogInit 1000000 SpiManager.new rfl
      (Or.inl rfl)).2 (by decide)).2.2.1⟩

/-- C10 counterexample: the freshly built dispatcher has
`spi_manager = Some`, but one failed `OSpiOp` (the link is Disabled)
leaves the field `None` — `handle_o_spi_op` does not put the taken
manager back on the error path. -/
theorem c10_failed_spiop_drops_manager :
    serprogInit.spi_manager.isSome = true ∧
    (serprogInit.handle_command true (fun _ => 0)
      (.OSpiOp 2 [0xAA, 0xBB])).1.spi_manager = none :=
  ⟨rfl, rfl⟩

/-- C10 (amended): `handle_o_spi_op` restores the taken `SpiManager`
only on the success path; on a transfer failure (including the
Disabled-link case) the `?` operator returns before the restore and the
`spi_manager` field is left `None`, so a later `SSpiFreq` maps over
`None` (a no-op) and a later `OSpiOp` fails again. -/
theorem handle_o_spi_op_manager_retention (s : SerProg) (hw : Bool)
    (rx : Nat → Nat) (rlen : Nat) (tx : List Nat) (m : SpiManager)
    (h : s.spi_manager = some m) :
    (m.enabled.isSome = true → hw = true →
      (s.handle_o_spi_op hw rx rlen tx).1.spi_manager = some m) ∧
    ((m.enabled = none ∨ hw = false) →
      (s.handle_o_spi_op hw rx rlen tx).1.spi_manager = none) := by
  constructor
  · intro he hhw
    rw [(SerProg.handle_o_spi_op_cases s hw rx rlen tx).2.2 m h he hhw]
  · intro hfail
    rw [(SerProg.handle_o_spi_op_cases s hw rx rlen tx).2.1 m h hfail]

/-- Witness for `handle_o_spi_op_manager_retention`: with an Enabled
link and a clean transfer the manager is restored; the fresh (Disabled)
dispatcher loses it. -/
theorem handle_o_spi_op_manager_retention_witness :
    ((SerProg.new (SpiManager.new.enable 1000)).handle_o_spi_op true
      (fun _ => 0) 0 []).1.spi_manager = some (SpiManager.new.enable 1000) ∧
    (serprogInit.handle_o_spi_op true (fun _ => 0) 2
      [0xAA, 0xBB]).1.spi_manager = none :=
  ⟨(handle_o_spi_op_manager_retention (SerProg.new (SpiManager.new.enable 1000))
      true (fun _ => 0) 0 [] (SpiManager.new.enable 1000) rfl).1 rfl rfl,
   (handle_o_spi_op_manager_retention serprogInit true (fun _ => 0) 2
      [0xAA, 0xBB] SpiManager.new rfl).2 (Or.inl rfl)⟩
